import Mathlib

/-!
Shallow embedding of the react-native-migration-toolkit repository:
the props adder (src/unnamed/part_004, `add-props.js`) and the usage
analyzer (src/component-analyzer.js).  Both scripts walk Babel ASTs of
JSX/TypeScript files; the parser, file discovery and report rendering are
external collaborators.  We model the parsed file as the data the two
scripts actually consume: the list of import declarations and the list of
JSX elements in document order.
-/

/-! ## JavaScript string primitives -/

/-- `pat` is a prefix of `s`, over char lists. -/
def charsStartsWith : List Char → List Char → Bool
  | [], _ => true
  | _ :: _, [] => false
  | a :: as, b :: bs => a == b && charsStartsWith as bs

/-- `pat` occurs as a contiguous substring of `s`, over char lists. -/
def charsContainsSub (pat : List Char) : List Char → Bool
  | [] => charsStartsWith pat []
  | b :: rest => charsStartsWith pat (b :: rest) || charsContainsSub pat rest

/-- JavaScript `s.includes(pat)`: substring containment (the empty pattern
is contained in every string). -/
def strIncludes (s pat : String) : Bool := charsContainsSub pat.data s.data

/-- JavaScript `s.toLowerCase()` restricted to the ASCII range used by the
tag names in this repository. -/
def jsToLower (s : String) : String := String.mk (s.data.map Char.toLower)

/-- Code-point lexicographic order on char lists. -/
def charListLt : List Char → List Char → Bool
  | [], [] => false
  | [], _ :: _ => true
  | _ :: _, [] => false
  | a :: as, b :: bs => a.toNat < b.toNat || (a == b && charListLt as bs)

/-- Model of JavaScript `a.localeCompare(b)` as a three-way comparison.
The real method is locale sensitive, but in every reachable call of this
repository it is applied to two equal strings (see `attrKeyLookup` below),
and on equal strings every locale returns 0, which is all the proofs use;
for distinct strings we pick code-point order as the concrete model. -/
def localeCompare (a b : String) : Int :=
  if charListLt a.data b.data then -1
  else if charListLt b.data a.data then 1
  else 0

/-- JavaScript `array.includes(v)` where the array holds strings and `v`
may be `undefined` (modelled `none`): `undefined` is never strictly equal
to a string, so a missing value is never found. -/
def jsIncludesOpt (l : List String) (v : Option String) : Bool :=
  match v with
  | some s => l.contains s
  | none => false

/-! ## Babel AST model

A Babel `JSXAttribute` node has exactly the fields `type`, `name` (a
`JSXIdentifier`, whose `name` field is the attribute name string) and
`value`.  It has no `key` field (`key` belongs to `ObjectProperty` nodes);
the same holds for `JSXSpreadAttribute`.  The attribute values the two
scripts create are `t.stringLiteral(v)` and
`t.jsxExpressionContainer(t.stringLiteral(v))`; parsed files may hold
other value nodes, modelled by an opaque constructor. -/

inductive JSXAttrValue where
  | strLit (s : String)
  | exprContainerStr (s : String)
  | otherNode (id : Nat)
deriving DecidableEq, Repr

structure JSXAttribute where
  name : String
  value : JSXAttrValue
deriving DecidableEq, Repr

/-- A JSX element as both scripts read it: `openingElement.name.name`
(`some` for a `JSXIdentifier` tag, `none` when the tag is a member
expression or otherwise has no `.name.name` string) plus the attribute
sequence. -/
structure JSXElement where
  name : Option String
  attributes : List JSXAttribute
deriving DecidableEq, Repr

inductive ImportSpec where
  | named (localName : String)
  | defaultSpec (localName : String)
  | namespaceSpec (localName : String)
deriving DecidableEq, Repr

structure ImportDecl where
  source : String
  specifiers : List ImportSpec
deriving DecidableEq, Repr

/-- The local names bound by the `ImportSpecifier` members of a
declaration (the filter both scripts apply keeps only specifiers whose
type field reads ImportSpecifier; default and namespace specifiers are
dropped). -/
def importSpecLocals (d : ImportDecl) : List String :=
  d.specifiers.filterMap fun s =>
    match s with
    | .named n => some n
    | .defaultSpec _ => none
    | .namespaceSpec _ => none

/-- One entry of the per-file import list both scripts build:
`{ source, components }`. -/
structure ImportInfo where
  source : String
  components : List String
deriving DecidableEq, Repr

/-- A parsed file, as consumed by the two scripts: its import
declarations and its JSX elements in document order. -/
structure ParsedFile where
  importDecls : List ImportDecl
  elements : List JSXElement
deriving DecidableEq, Repr

/-! ## Props adder (src/unnamed/part_004) -/

structure AdderProp where
  name : String
  value : String
deriving DecidableEq, Repr

structure AdderConfig where
  components : List String
  packages : List String
  props : List AdderProp
  updateExisting : Bool
deriving DecidableEq, Repr

/-- The frozen built-in markup vocabulary `HTML_ELEMENTS` (lowercase). -/
def HTML_ELEMENTS : List String :=
  ["div", "span", "p", "h1", "h2", "h3", "h4", "h5", "h6",
   "a", "img", "ul", "ol", "li", "table", "tr", "td", "th",
   "form", "input", "button", "label", "select", "option",
   "textarea", "section", "article", "header", "footer", "nav",
   "main", "aside", "figure", "figcaption", "blockquote", "code",
   "pre", "em", "strong", "small", "mark", "del", "ins", "sub", "sup"]

/-- `isComponentFromTargetPackages`: some import whose `components` list
holds the name, where some configured package name is a substring of
the source of the import, via `importInfo.source.includes(pkg)`. -/
def isComponentFromTargetPackages (cfg : AdderConfig) (imports : List ImportInfo)
    (componentName : String) : Bool :=
  imports.any fun importInfo =>
    importInfo.components.contains componentName &&
      cfg.packages.any fun pkg => strIncludes importInfo.source pkg

/-- `shouldProcessComponent`: the guard (falsy name, or name not of
string type) is true for a missing name (`none`) and for the falsy
empty string; then the HTML vocabulary is consulted on the lower-cased
name, then the direct-name list, then the provenance check. -/
def shouldProcessComponent (cfg : AdderConfig) (componentName : Option String)
    (imports : List ImportInfo) : Bool :=
  match componentName with
  | none => false
  | some n =>
    if n == "" then false
    else if HTML_ELEMENTS.contains (jsToLower n) then false
    else if cfg.components.contains n then true
    else isComponentFromTargetPackages cfg imports n

/-- The expression `prop.key?.name || prop.key?.value` that `hasProp`,
`updatePropValue` and `sortPropsAlphabetically` evaluate on each member
of `openingElement.attributes`.  Those members are `JSXAttribute` (or
`JSXSpreadAttribute`) nodes, which carry no `key` field, so `prop.key` is
`undefined`, both optional chains are `undefined`, and the whole
expression is `undefined` — modelled as `none` — for every attribute the
scripts ever see. -/
def attrKeyLookup (_ : JSXAttribute) : Option String := none

/-- `hasProp`: `key === propName` with `key` the result of
`attrKeyLookup`; strict equality of `undefined` with a string is false. -/
def hasProp (props : List JSXAttribute) (propName : String) : Bool :=
  props.any fun prop => attrKeyLookup prop == some propName

/-- `updatePropValue`: find the first attribute whose `attrKeyLookup`
result equals the name, set its value to a string literal and report
true; report false when no attribute matches. -/
def updatePropValue (props : List JSXAttribute) (propName newValue : String) :
    List JSXAttribute × Bool :=
  match props with
  | [] => ([], false)
  | p :: rest =>
    if attrKeyLookup p == some propName then
      ({ p with value := JSXAttrValue.strLit newValue } :: rest, true)
    else
      let r := updatePropValue rest propName newValue
      (p :: r.1, r.2)

/-- The comparator passed to `props.sort`: `localeCompare` of the two
`attrKeyLookup` results, each defaulted to the empty string by the
trailing or-else branch. -/
def propComparator (a b : JSXAttribute) : Int :=
  localeCompare ((attrKeyLookup a).getD "") ((attrKeyLookup b).getD "")

/-- Stable insertion of one element with respect to a three-way
comparator: the new element goes before the first element it compares
strictly below, after every element it ties with. -/
def insertStableBy (c : JSXAttribute → JSXAttribute → Int) (x : JSXAttribute) :
    List JSXAttribute → List JSXAttribute
  | [] => [x]
  | y :: ys => if c x y < 0 then x :: y :: ys else y :: insertStableBy c x ys

/-- `sortPropsAlphabetically`: JavaScript `Array.prototype.sort` with the
comparator above — a stable sort (stable insertion sort, inserting the
elements in their original order). -/
def sortPropsAlphabetically (props : List JSXAttribute) : List JSXAttribute :=
  props.foldl (fun acc p => insertStableBy propComparator p acc) []

/-- The outcome of `addPropsToComponent` on one element: the resulting
attribute sequence, whether the guard passed (`stats.componentsFound`
increments), the returned `hasChanges` flag, and the directive names for
which `stats.propsAdded`, `stats.propsUpdated` and
`stats.componentsSkipped` were incremented, in processing order. -/
structure MergeResult where
  attrs : List JSXAttribute
  processed : Bool
  changed : Bool
  added : List String
  updated : List String
  skipped : List String
deriving DecidableEq, Repr

/-- `addPropsToComponent`: for each configured prop, if `hasProp` then
update (when `updateExisting`) or skip, otherwise append a synthesized
`t.jsxAttribute(t.jsxIdentifier(name),
t.jsxExpressionContainer(t.stringLiteral(value)))`; finally sort when
anything changed. -/
def addPropsToComponent (cfg : AdderConfig) (imports : List ImportInfo)
    (jsxElement : JSXElement) : MergeResult :=
  if shouldProcessComponent cfg jsxElement.name imports then
    let init : MergeResult :=
      { attrs := jsxElement.attributes, processed := true, changed := false,
        added := [], updated := [], skipped := [] }
    let afterProps := cfg.props.foldl (fun st pc =>
      if hasProp st.attrs pc.name then
        if cfg.updateExisting then
          let upd := updatePropValue st.attrs pc.name pc.value
          if upd.2 then
            { st with attrs := upd.1, updated := st.updated ++ [pc.name], changed := true }
          else { st with attrs := upd.1 }
        else { st with skipped := st.skipped ++ [pc.name] }
      else
        { st with
            attrs := st.attrs ++ [⟨pc.name, JSXAttrValue.exprContainerStr pc.value⟩],
            added := st.added ++ [pc.name], changed := true }) init
    if afterProps.changed then
      { afterProps with attrs := sortPropsAlphabetically afterProps.attrs }
    else afterProps
  else
    { attrs := jsxElement.attributes, processed := false, changed := false,
      added := [], updated := [], skipped := [] }

/-- The import collection pass of the adder: every declaration with at least
one `ImportSpecifier` is retained (no package filter in this script). -/
def collectImports (decls : List ImportDecl) : List ImportInfo :=
  decls.foldl (fun acc d =>
    let comps := importSpecLocals d
    if 0 < comps.length then acc ++ [⟨d.source, comps⟩] else acc) []

/-- The `stats` object of the adder. -/
structure AdderStats where
  filesProcessed : Nat
  filesModified : Nat
  componentsFound : Nat
  propsAdded : Nat
  propsUpdated : Nat
  componentsSkipped : Nat
  errors : List String
deriving DecidableEq, Repr

def initialAdderStats : AdderStats :=
  { filesProcessed := 0, filesModified := 0, componentsFound := 0,
    propsAdded := 0, propsUpdated := 0, componentsSkipped := 0, errors := [] }

/-- Fold the `MergeResult` of one element into the stats counters. -/
def applyMergeStats (st : AdderStats) (r : MergeResult) : AdderStats :=
  { st with
      componentsFound := st.componentsFound + (if r.processed then 1 else 0),
      propsAdded := st.propsAdded + r.added.length,
      propsUpdated := st.propsUpdated + r.updated.length,
      componentsSkipped := st.componentsSkipped + r.skipped.length }

/-- One step of the per-file JSX walk of the adder: merge the directives into
the element, fold the outcome into the stats, and remember whether the
file changed. -/
def adderFileFold (cfg : AdderConfig) (imports : List ImportInfo)
    (acc : AdderStats × Bool) (el : JSXElement) : AdderStats × Bool :=
  let r := addPropsToComponent cfg imports el
  (applyMergeStats acc.1 r, acc.2 || r.changed)

/-- The `processFile` of the adder: the whole body sits in a try/catch, whose
modelled fallible step is parsing; a failure pushes
`Error processing <path>: <message>` onto `stats.errors` and leaves the
other counters alone.  On success the JSX elements are processed in
order, `filesModified` is incremented when any element changed, and
`filesProcessed` is incremented. -/
def adderProcessFile (cfg : AdderConfig) (st : AdderStats)
    (file : String × Except String ParsedFile) : AdderStats :=
  match file.2 with
  | .error msg =>
    { st with errors := st.errors ++ ["Error processing " ++ file.1 ++ ": " ++ msg] }
  | .ok pf =>
    let imports := collectImports pf.importDecls
    let folded := pf.elements.foldl (adderFileFold cfg imports) (st, false)
    let st1 := folded.1
    let st2 :=
      if folded.2 then { st1 with filesModified := st1.filesModified + 1 } else st1
    { st2 with filesProcessed := st2.filesProcessed + 1 }

/-- The main loop of the adder over the discovered files. -/
def adderRun (cfg : AdderConfig) (files : List (String × Except String ParsedFile)) :
    AdderStats :=
  files.foldl (adderProcessFile cfg) initialAdderStats

/-! ## Usage analyzer (src/component-analyzer.js) -/

structure Thresholds where
  high : Nat
  medium : Nat
deriving DecidableEq, Repr

structure ComponentFilters where
  includeFilter : List String
  excludeFilter : List String
deriving DecidableEq, Repr

structure AnalyzerConfig where
  packagesToTrack : List String
  priorityThresholds : Thresholds
  componentFilters : ComponentFilters
deriving DecidableEq, Repr

/-- `getMigrationPriority`: high at or above the high threshold, else
medium at or above the medium threshold, else low. -/
def getMigrationPriority (cfg : AnalyzerConfig) (usageCount : Nat) : String :=
  if usageCount ≥ cfg.priorityThresholds.high then "high"
  else if usageCount ≥ cfg.priorityThresholds.medium then "medium"
  else "low"

/-- JavaScript `Map` get: first binding of the key, in insertion order. -/
def mapGet {β : Type} : List (String × β) → String → Option β
  | [], _ => none
  | (k, v) :: rest, key => if k == key then some v else mapGet rest key

/-- JavaScript `Map.set`: overwrite in place when the key is present,
append at the end otherwise. -/
def mapSet {β : Type} : List (String × β) → String → β → List (String × β)
  | [], key, v => [(key, v)]
  | (k, w) :: rest, key, v =>
    if k == key then (k, v) :: rest else (k, w) :: mapSet rest key v

/-- JavaScript `Set.add` / push-if-absent on an insertion-ordered list. -/
def addUnique (l : List String) (x : String) : List String :=
  if l.contains x then l else l ++ [x]

/-- One record of `analysis.components`: `{ name, totalUsages, files,
packages, migrationPriority }`. -/
structure ComponentData where
  name : String
  totalUsages : Nat
  files : List (String × Nat)
  packages : List String
  migrationPriority : String
deriving DecidableEq, Repr

structure AnalysisSummary where
  totalFiles : Nat
  totalComponents : Nat
  totalUsages : Nat
  packages : List String
deriving DecidableEq, Repr

structure FileData where
  path : String
  componentUsage : List (String × Nat)
  totalUsages : Nat
deriving DecidableEq, Repr

/-- The global `analysis` object of the analyzer. -/
structure AnalysisState where
  summary : AnalysisSummary
  components : List (String × ComponentData)
  files : List (String × FileData)
  imports : List (String × List String)
deriving DecidableEq, Repr

def initialAnalysis : AnalysisState :=
  { summary := { totalFiles := 0, totalComponents := 0, totalUsages := 0, packages := [] },
    components := [], files := [], imports := [] }

/-- `analyzeImports`, one declaration at a time: a declaration is
retained only when its source exactly equals (`source === pkg`) some
member of `packagesToTrack` and it binds at least one `ImportSpecifier`;
retention also records the package in `summary.packages` and merges the
bound names into `analysis.imports`. -/
def analyzeImportsGo (cfg : AnalyzerConfig) :
    AnalysisState → List ImportInfo → List ImportDecl → AnalysisState × List ImportInfo
  | st, acc, [] => (st, acc)
  | st, acc, d :: ds =>
    if cfg.packagesToTrack.any (fun pkg => d.source == pkg) then
      let comps := importSpecLocals d
      if 0 < comps.length then
        let cur := match mapGet st.imports d.source with
          | some l => l
          | none => []
        let st1 :=
          { st with
              summary := { st.summary with packages := addUnique st.summary.packages d.source },
              imports := mapSet st.imports d.source (comps.foldl addUnique cur) }
        analyzeImportsGo cfg st1 (acc ++ [⟨d.source, comps⟩]) ds
      else analyzeImportsGo cfg st acc ds
    else analyzeImportsGo cfg st acc ds

def analyzeImports (cfg : AnalyzerConfig) (st : AnalysisState)
    (decls : List ImportDecl) : AnalysisState × List ImportInfo :=
  analyzeImportsGo cfg st [] decls

/-- A fresh `ComponentData` record as `analyzeJSXUsage` creates it. -/
def newComponentData (n : String) : ComponentData :=
  { name := n, totalUsages := 0, files := [], packages := [], migrationPriority := "low" }

/-- The ensure-then-increment pattern `if (!m.has(k)) m.set(k, 0);
m.set(k, m.get(k) + 1)` on a JavaScript `Map` of counters. -/
def mapBump (m : List (String × Nat)) (k : String) : List (String × Nat) :=
  let m0 := if (mapGet m k).isSome then m else mapSet m k 0
  mapSet m0 k ((mapGet m0 k).getD 0 + 1)

/-- One `JSXElement` visit of `analyzeJSXUsage`: include filter (only
when non-empty), exclude filter, then the tracked-import membership test;
a tracked sighting bumps the per-file usage map and the global component
record (creating it first when absent) and adds, to the packages of the
record, the source of the first import that binds the name.  The inner
`none` branch is unreachable: a missing tag name is never a member of
the string list of an import record, so the membership test already
failed. -/
def analyzeOneJSX (cfg : AnalyzerConfig) (filePath : String)
    (fileImports : List ImportInfo) (acc : AnalysisState × List (String × Nat))
    (el : JSXElement) : AnalysisState × List (String × Nat) :=
  let componentName := el.name
  if 0 < cfg.componentFilters.includeFilter.length &&
      !(jsIncludesOpt cfg.componentFilters.includeFilter componentName) then acc
  else if jsIncludesOpt cfg.componentFilters.excludeFilter componentName then acc
  else if fileImports.any (fun imp => jsIncludesOpt imp.components componentName) then
    match componentName with
    | none => acc
    | some n =>
      let usage1 := mapBump acc.2 n
      let st := acc.1
      let comps0 :=
        if (mapGet st.components n).isSome then st.components
        else mapSet st.components n (newComponentData n)
      let cd := match mapGet comps0 n with
        | some c => c
        | none => newComponentData n
      let cd1 := { cd with totalUsages := cd.totalUsages + 1, files := mapBump cd.files filePath }
      let cd2 := match fileImports.find? (fun imp => jsIncludesOpt imp.components componentName) with
        | some importInfo => { cd1 with packages := addUnique cd1.packages importInfo.source }
        | none => cd1
      ({ st with components := mapSet comps0 n cd2 }, usage1)
  else acc

/-- `analyzeJSXUsage` over the elements of one file, returning the
updated global analysis and the per-file `componentUsage` map. -/
def analyzeJSXUsage (cfg : AnalyzerConfig) (filePath : String)
    (fileImports : List ImportInfo) (st : AnalysisState)
    (elements : List JSXElement) : AnalysisState × List (String × Nat) :=
  elements.foldl (analyzeOneJSX cfg filePath fileImports) (st, [])

/-- The `processFile` of the analyzer: on a parse failure the catch block only
logs to the console — nothing is recorded in `analysis` — while a parsed
file contributes its imports, its usage counts, a `FileData` entry and a
`summary.totalFiles` increment. -/
def analyzerProcessFile (cfg : AnalyzerConfig) (st : AnalysisState)
    (file : String × Except String ParsedFile) : AnalysisState :=
  match file.2 with
  | .error _ => st
  | .ok pf =>
    let r1 := analyzeImports cfg st pf.importDecls
    let r2 := analyzeJSXUsage cfg file.1 r1.2 r1.1 pf.elements
    let fileData : FileData :=
      { path := file.1, componentUsage := r2.2,
        totalUsages := r2.2.foldl (fun a kv => a + kv.2) 0 }
    let st3 := { r2.1 with files := mapSet r2.1.files file.1 fileData }
    { st3 with summary := { st3.summary with totalFiles := st3.summary.totalFiles + 1 } }

/-- The file loop of the analyzer. -/
def analyzerRun (cfg : AnalyzerConfig) (files : List (String × Except String ParsedFile)) :
    AnalysisState :=
  files.foldl (analyzerProcessFile cfg) initialAnalysis

/-- The summary computation at the end of `main`:
`summary.totalComponents = components.size` and `summary.totalUsages` is
the sum of `totalUsages` over the records. -/
def finalizeSummary (st : AnalysisState) : AnalysisState :=
  { st with
      summary :=
        { st.summary with
            totalComponents := st.components.length,
            totalUsages := st.components.foldl (fun a kv => a + kv.2.totalUsages) 0 } }

/-- The `main` of the analyzer, restricted to the analysis model: process
every discovered file, then finalize the summary. -/
def analyzerMain (cfg : AnalyzerConfig) (files : List (String × Except String ParsedFile)) :
    AnalysisState :=
  finalizeSummary (analyzerRun cfg files)

/-! ## Spec-side predicates (used to state claims) -/

/-- Strictly increasing under code-point lexicographic order: the claimed
shape of a merged attribute name sequence (sorted, no duplicates). -/
def strictlySortedNames : List String → Bool
  | [] => true
  | [_] => true
  | a :: b :: rest => charListLt a.data b.data && strictlySortedNames (b :: rest)

/-- Rank of a priority string, for stating monotonicity. -/
def priorityRank (p : String) : Nat :=
  if p = "high" then 2 else if p = "medium" then 1 else 0

/-- Whether a parse outcome succeeded. -/
def parseOk (r : Except String ParsedFile) : Bool :=
  match r with
  | .ok _ => true
  | .error _ => false

/-- The error message the adder records for a failed file. -/
def adderErrorMsg (file : String × Except String ParsedFile) : Option String :=
  match file.2 with
  | .error m => some ("Error processing " ++ file.1 ++ ": " ++ m)
  | .ok _ => none

/-- The total-usage count a state records for a component name. -/
def recordedTotal (st : AnalysisState) (n : String) : Nat :=
  match mapGet st.components n with
  | some cd => cd.totalUsages
  | none => 0

/-- The per-file counter a state records for a component name and file. -/
def recordedFileCount (st : AnalysisState) (n fp : String) : Nat :=
  match mapGet st.components n with
  | some cd => (mapGet cd.files fp).getD 0
  | none => 0

/-- The in-scope test a sighting must pass in `analyzeJSXUsage`: the
include filter (when non-empty), the exclude filter, and membership in
some retained import record. -/
def inScopeSighting (cfg : AnalyzerConfig) (fileImports : List ImportInfo)
    (componentName : Option String) : Bool :=
  !(0 < cfg.componentFilters.includeFilter.length &&
      !(jsIncludesOpt cfg.componentFilters.includeFilter componentName)) &&
  !(jsIncludesOpt cfg.componentFilters.excludeFilter componentName) &&
  fileImports.any (fun imp => jsIncludesOpt imp.components componentName)

/-! ## Shared fixtures for concrete runs -/

/-- An analyzer configuration tracking the single module `kit`, with the
default thresholds and empty filters. -/
def kitAnalyzerConfig : AnalyzerConfig := ⟨["kit"], ⟨10, 5⟩, ⟨[], []⟩⟩

/-! ## Helper lemmas -/

theorem mapGet_mapSet_self {β : Type} (m : List (String × β)) (k : String) (v : β) :
    mapGet (mapSet m k v) k = some v := by
  induction m with
  | nil => simp [mapGet, mapSet]
  | cons p rest ih =>
    obtain ⟨a, w⟩ := p
    by_cases h : a == k
    · simp [mapGet, mapSet, h]
    · simp only [mapSet, h]
      simp [mapGet, h, ih]

theorem mapBump_get (m : List (String × Nat)) (k : String) :
    (mapGet (mapBump m k) k).getD 0 = (mapGet m k).getD 0 + 1 := by
  unfold mapBump
  cases h : mapGet m k with
  | some v => simp [h, mapGet_mapSet_self]
  | none => simp [h, mapGet_mapSet_self]

theorem htmlGuard (cfg : AdderConfig) (imports : List ImportInfo) (n : String)
    (h : HTML_ELEMENTS.contains (jsToLower n) = true) :
    shouldProcessComponent cfg (some n) imports = false := by
  have h2 : jsToLower n ∈ HTML_ELEMENTS := by simpa using h
  simp [shouldProcessComponent, h2]

theorem adderFileFold_preserves (cfg : AdderConfig) (imports : List ImportInfo)
    (els : List JSXElement) (acc : AdderStats × Bool) :
    (els.foldl (adderFileFold cfg imports) acc).1.errors = acc.1.errors ∧
    (els.foldl (adderFileFold cfg imports) acc).1.filesProcessed = acc.1.filesProcessed ∧
    (els.foldl (adderFileFold cfg imports) acc).1.filesModified = acc.1.filesModified := by
  induction els generalizing acc with
  | nil => simp
  | cons el rest ih =>
    simp only [List.foldl_cons]
    rcases ih (adderFileFold cfg imports acc el) with ⟨h1, h2, h3⟩
    exact ⟨h1, h2, h3⟩

theorem adderProcessFile_ok (cfg : AdderConfig) (st : AdderStats) (p : String)
    (pf : ParsedFile) :
    (adderProcessFile cfg st (p, .ok pf)).errors = st.errors ∧
    (adderProcessFile cfg st (p, .ok pf)).filesProcessed = st.filesProcessed + 1 := by
  unfold adderProcessFile
  rcases adderFileFold_preserves cfg (collectImports pf.importDecls) pf.elements (st, false)
    with ⟨h1, h2, _⟩
  by_cases hm : (pf.elements.foldl (adderFileFold cfg (collectImports pf.importDecls)) (st, false)).2
  · simp [hm, h1, h2]
  · simp [hm, h1, h2]

theorem adderRunGo (cfg : AdderConfig) (files : List (String × Except String ParsedFile))
    (st : AdderStats) :
    (files.foldl (adderProcessFile cfg) st).errors = st.errors ++ files.filterMap adderErrorMsg ∧
    (files.foldl (adderProcessFile cfg) st).filesProcessed =
      st.filesProcessed + (files.filter (fun f => parseOk f.2)).length := by
  induction files generalizing st with
  | nil => simp
  | cons f rest ih =>
    obtain ⟨p, r⟩ := f
    cases r with
    | error m =>
      rcases ih { st with errors := st.errors ++ ["Error processing " ++ p ++ ": " ++ m] }
        with ⟨h1, h2⟩
      simp only [List.foldl_cons]
      constructor
      · rw [show adderProcessFile cfg st (p, Except.error m) =
            { st with errors := st.errors ++ ["Error processing " ++ p ++ ": " ++ m] } from rfl]
        rw [h1]
        simp [adderErrorMsg]
      · rw [show adderProcessFile cfg st (p, Except.error m) =
            { st with errors := st.errors ++ ["Error processing " ++ p ++ ": " ++ m] } from rfl]
        rw [h2]
        simp [parseOk]
    | ok pf =>
      rcases ih (adderProcessFile cfg st (p, .ok pf)) with ⟨h1, h2⟩
      rcases adderProcessFile_ok cfg st p pf with ⟨g1, g2⟩
      simp only [List.foldl_cons]
      constructor
      · rw [h1, g1]; simp [adderErrorMsg]
      · rw [h2, g2]; simp [parseOk, Nat.add_assoc, Nat.add_comm 1]

theorem analyzeImportsGo_totalFiles (cfg : AnalyzerConfig) (decls : List ImportDecl)
    (st : AnalysisState) (acc : List ImportInfo) :
    (analyzeImportsGo cfg st acc decls).1.summary.totalFiles = st.summary.totalFiles := by
  induction decls generalizing st acc with
  | nil => rfl
  | cons d ds ih =>
    unfold analyzeImportsGo
    dsimp only
    split_ifs with h1 h2
    · rw [ih]
    · rw [ih]
    · rw [ih]

theorem analyzeOneJSX_summary (cfg : AnalyzerConfig) (fp : String)
    (fileImports : List ImportInfo) (acc : AnalysisState × List (String × Nat))
    (el : JSXElement) :
    (analyzeOneJSX cfg fp fileImports acc el).1.summary = acc.1.summary := by
  obtain ⟨nm, attrs⟩ := el
  cases nm with
  | none => unfold analyzeOneJSX; dsimp only; split_ifs <;> rfl
  | some n => unfold analyzeOneJSX; dsimp only; split_ifs <;> rfl

theorem analyzeJSXUsage_summary (cfg : AnalyzerConfig) (fp : String)
    (fileImports : List ImportInfo) (els : List JSXElement)
    (acc : AnalysisState × List (String × Nat)) :
    (els.foldl (analyzeOneJSX cfg fp fileImports) acc).1.summary = acc.1.summary := by
  induction els generalizing acc with
  | nil => rfl
  | cons el rest ih =>
    simp only [List.foldl_cons]
    rw [ih (analyzeOneJSX cfg fp fileImports acc el)]
    exact analyzeOneJSX_summary cfg fp fileImports acc el

theorem analyzerProcessFile_totalFiles_ok (cfg : AnalyzerConfig) (st : AnalysisState)
    (p : String) (pf : ParsedFile) :
    (analyzerProcessFile cfg st (p, .ok pf)).summary.totalFiles =
      st.summary.totalFiles + 1 := by
  unfold analyzerProcessFile
  simp only []
  rw [show (analyzeJSXUsage cfg p (analyzeImports cfg st pf.importDecls).2
      (analyzeImports cfg st pf.importDecls).1 pf.elements).1.summary =
      (analyzeImports cfg st pf.importDecls).1.summary from
    analyzeJSXUsage_summary cfg p _ pf.elements _]
  rw [show (analyzeImports cfg st pf.importDecls).1.summary.totalFiles =
      st.summary.totalFiles from analyzeImportsGo_totalFiles cfg pf.importDecls st []]

theorem analyzerRunGo_totalFiles (cfg : AnalyzerConfig)
    (files : List (String × Except String ParsedFile)) (st : AnalysisState) :
    (files.foldl (analyzerProcessFile cfg) st).summary.totalFiles =
      st.summary.totalFiles + (files.filter (fun f => parseOk f.2)).length := by
  induction files generalizing st with
  | nil => simp
  | cons f rest ih =>
    obtain ⟨p, r⟩ := f
    cases r with
    | error m =>
      simp only [List.foldl_cons]
      rw [show analyzerProcessFile cfg st (p, Except.error m) = st from rfl, ih st]
      simp [parseOk]
    | ok pf =>
      simp only [List.foldl_cons]
      rw [ih (analyzerProcessFile cfg st (p, .ok pf)),
        analyzerProcessFile_totalFiles_ok cfg st p pf]
      simp [parseOk, Nat.add_assoc, Nat.add_comm 1]

theorem analyzeImportsGo_exact (cfg : AnalyzerConfig) (decls : List ImportDecl)
    (st : AnalysisState) (acc : List ImportInfo)
    (hacc : ∀ ii ∈ acc, ii.source ∈ cfg.packagesToTrack) :
    ∀ ii ∈ (analyzeImportsGo cfg st acc decls).2, ii.source ∈ cfg.packagesToTrack := by
  induction decls generalizing st acc with
  | nil => exact hacc
  | cons d ds ih =>
    unfold analyzeImportsGo
    dsimp only
    split_ifs with h1 h2
    · apply ih
      intro ii hii
      rcases List.mem_append.mp hii with h | h
      · exact hacc ii h
      · have hsrc : d.source ∈ cfg.packagesToTrack := by
          rcases List.any_eq_true.mp h1 with ⟨pkg, hpkg, heq⟩
          rw [show d.source = pkg from by simpa using heq]
          exact hpkg
        rcases List.mem_singleton.mp h with rfl
        exact hsrc
    · exact ih st acc hacc
    · exact ih st acc hacc

theorem mutationSubstringMatch (acfg : AdderConfig) (src name pkg : String)
    (hmem : pkg ∈ acfg.packages) (hinc : strIncludes src pkg = true) :
    isComponentFromTargetPackages acfg [⟨src, [name]⟩] name = true := by
  unfold isComponentFromTargetPackages
  simp only [List.any_cons, List.any_nil, Bool.or_false, Bool.and_eq_true]
  exact ⟨by simp [List.contains], List.any_eq_true.mpr ⟨pkg, hmem, hinc⟩⟩

theorem inScopeBump (cfg : AnalyzerConfig) (fp : String) (fileImports : List ImportInfo)
    (st : AnalysisState) (usage : List (String × Nat)) (el : JSXElement) (n : String)
    (hn : el.name = some n)
    (hscope : inScopeSighting cfg fileImports el.name = true) :
    recordedTotal (analyzeOneJSX cfg fp fileImports (st, usage) el).1 n =
      recordedTotal st n + 1 ∧
    recordedFileCount (analyzeOneJSX cfg fp fileImports (st, usage) el).1 n fp =
      recordedFileCount st n fp + 1 := by
  rw [hn] at hscope
  unfold inScopeSighting at hscope
  simp only [Bool.and_eq_true, Bool.not_eq_true'] at hscope
  obtain ⟨⟨h1a, h2⟩, h3⟩ := hscope
  unfold analyzeOneJSX
  rw [hn]
  dsimp only
  rw [h1a, h2, h3]
  simp only [Bool.false_eq_true, if_false, if_true]
  cases hc : mapGet st.components n with
  | some c =>
    cases hf : List.find? (fun imp => jsIncludesOpt imp.components (some n)) fileImports with
    | some importInfo =>
      simp [recordedTotal, recordedFileCount, hc, hf, mapGet_mapSet_self, mapBump_get]
    | none =>
      simp [recordedTotal, recordedFileCount, hc, hf, mapGet_mapSet_self, mapBump_get]
  | none =>
    cases hf : List.find? (fun imp => jsIncludesOpt imp.components (some n)) fileImports with
    | some importInfo =>
      simp [recordedTotal, recordedFileCount, hc, hf, mapGet_mapSet_self, mapBump_get,
        newComponentData, mapGet]
    | none =>
      simp [recordedTotal, recordedFileCount, hc, hf, mapGet_mapSet_self, mapBump_get,
        newComponentData, mapGet]

theorem adderSkipsMissingName (cfg : AdderConfig) (imports : List ImportInfo)
    (attrs : List JSXAttribute) :
    addPropsToComponent cfg imports ⟨none, attrs⟩ =
      { attrs := attrs, processed := false, changed := false,
        added := [], updated := [], skipped := [] } := by
  simp [addPropsToComponent, shouldProcessComponent]

theorem analyzerSkipsMissingName (cfg : AnalyzerConfig) (fp : String)
    (fileImports : List ImportInfo) (st : AnalysisState) (usage : List (String × Nat))
    (attrs : List JSXAttribute) :
    analyzeOneJSX cfg fp fileImports (st, usage) ⟨none, attrs⟩ = (st, usage) := by
  unfold analyzeOneJSX
  dsimp only
  rw [show jsIncludesOpt cfg.componentFilters.includeFilter none = false from rfl]
  rw [show jsIncludesOpt cfg.componentFilters.excludeFilter none = false from rfl]
  rw [show (fileImports.any fun imp => jsIncludesOpt imp.components none) = false from by
    induction fileImports <;> simp_all [List.any, jsIncludesOpt]]
  split_ifs <;> rfl

theorem foldl_add_totalUsages (l : List (String × ComponentData)) (a : Nat) :
    l.foldl (fun acc kv => acc + kv.2.totalUsages) a =
      a + (l.map (fun kv => kv.2.totalUsages)).sum := by
  induction l generalizing a with
  | nil => simp
  | cons kv rest ih => simp [ih, Nat.add_assoc]

/-! ## Claims -/

/-- C1: the claim says merging twice with `updateExisting = true` equals
merging once, the second run reporting no change.  On the code this
fails: the element `<Field/>` merged once with directive
`required = "true"` gains one attribute, and a second run appends a
duplicate of it and reports a change, because `hasProp` inspects
`prop.key`, a field `JSXAttribute` nodes do not have. -/
theorem C1_merge_engine_not_idempotent :
    (addPropsToComponent ⟨["Field"], [], [⟨"required", "true"⟩], true⟩ []
      ⟨some "Field", []⟩).attrs = [⟨"required", .exprContainerStr "true"⟩] ∧
    (addPropsToComponent ⟨["Field"], [], [⟨"required", "true"⟩], true⟩ []
        ⟨some "Field",
          (addPropsToComponent ⟨["Field"], [], [⟨"required", "true"⟩], true⟩ []
            ⟨some "Field", []⟩).attrs⟩).attrs =
      [⟨"required", .exprContainerStr "true"⟩, ⟨"required", .exprContainerStr "true"⟩] ∧
    (addPropsToComponent ⟨["Field"], [], [⟨"required", "true"⟩], true⟩ []
        ⟨some "Field",
          (addPropsToComponent ⟨["Field"], [], [⟨"required", "true"⟩], true⟩ []
            ⟨some "Field", []⟩).attrs⟩).changed = true := by
  decide

/-- C2: the claim says a merge reporting `changed = true` leaves the
attribute names strictly sorted with no duplicates.  On the code this
fails: merging directive `a = "2"` into `<Field z="1"/>` reports a
change but produces the name sequence `z, a`, because the sort
comparator reads `prop.key` (absent on `JSXAttribute` nodes), so every
key is the empty string and the stable sort leaves the order alone. -/
theorem C2_merge_result_not_sorted :
    (addPropsToComponent ⟨["Field"], [], [⟨"a", "2"⟩], false⟩ []
      ⟨some "Field", [⟨"z", .strLit "1"⟩]⟩).changed = true ∧
    (addPropsToComponent ⟨["Field"], [], [⟨"a", "2"⟩], false⟩ []
      ⟨some "Field", [⟨"z", .strLit "1"⟩]⟩).attrs.map JSXAttribute.name = ["z", "a"] ∧
    strictlySortedNames
      ((addPropsToComponent ⟨["Field"], [], [⟨"a", "2"⟩], false⟩ []
        ⟨some "Field", [⟨"z", .strLit "1"⟩]⟩).attrs.map JSXAttribute.name) = false := by
  decide

/-- C3: the claim says `<Field maxLength="10"/>` with directive
`maxLength = "20"` and `updateExisting = false` is skipped with no
change.  On the code the existing attribute is not detected (`hasProp`
reads the absent `prop.key` field), so a duplicate `maxLength` attribute
is appended, `added` rather than `skipped` records the name, and
`changed = true` is reported. -/
theorem C3_update_suppression_broken :
    addPropsToComponent ⟨["Field"], [], [⟨"maxLength", "20"⟩], false⟩ []
        ⟨some "Field", [⟨"maxLength", .strLit "10"⟩]⟩ =
      { attrs := [⟨"maxLength", .strLit "10"⟩, ⟨"maxLength", .exprContainerStr "20"⟩],
        processed := true, changed := true,
        added := ["maxLength"], updated := [], skipped := [] } := by
  decide

/-- C4 counterexample: in the mutation path a module path that merely
contains a tracked package name as a substring does produce an in-scope
classification: with `packages = ["kit"]`, a `Field` imported from
`super-kit` is processed although `super-kit` is not a member of the
package list. -/
theorem C4_substring_counterexample :
    shouldProcessComponent ⟨[], ["kit"], [], false⟩ (some "Field")
        [⟨"super-kit", ["Field"]⟩] = true ∧
    (["kit"] : List String).contains "super-kit" = false := by
  decide

/-- C4 (amended): the analysis path requires the importing module path to
exactly equal a tracked package (every record retained by
`analyzeImports` has its source in `packagesToTrack`), while the mutation
path classifies in scope whenever a tracked package name is merely a
substring of the module path. -/
theorem C4_provenance_matching :
    (∀ (cfg : AnalyzerConfig) (st : AnalysisState) (decls : List ImportDecl),
      ∀ ii ∈ (analyzeImports cfg st decls).2, ii.source ∈ cfg.packagesToTrack) ∧
    (∀ (acfg : AdderConfig) (src name pkg : String),
      pkg ∈ acfg.packages → strIncludes src pkg = true →
      isComponentFromTargetPackages acfg [⟨src, [name]⟩] name = true) :=
  ⟨fun cfg st decls => analyzeImportsGo_exact cfg decls st [] (by simp),
   mutationSubstringMatch⟩

/-- Witness for C4: both halves applied at concrete inputs. -/
theorem C4_provenance_matching_witness :
    ("kit" : String) ∈ kitAnalyzerConfig.packagesToTrack ∧
    isComponentFromTargetPackages ⟨[], ["kit"], [], false⟩
        [⟨"super-kit", ["Field"]⟩] "Field" = true :=
  ⟨C4_provenance_matching.1 kitAnalyzerConfig initialAnalysis
      [⟨"kit", [.named "Field"]⟩] ⟨"kit", ["Field"]⟩ (by decide),
   C4_provenance_matching.2 ⟨[], ["kit"], [], false⟩ "super-kit" "Field" "kit"
      (by decide) (by decide)⟩

/-- C5 counterexample: the analysis path has no built-in exclusion: the
vocabulary tag `button`, imported as a named binding from the tracked
module `kit`, is counted by `analyzeJSXUsage` rather than ignored. -/
theorem C5_analyzer_counts_builtin_tag :
    (analyzeJSXUsage kitAnalyzerConfig "A" [⟨"kit", ["button"]⟩]
        initialAnalysis [⟨some "button", []⟩]).2 = [("button", 1)] ∧
    HTML_ELEMENTS.contains "button" = true := by
  decide

/-- C5 (amended): in the mutation path every name of the built-in markup
vocabulary is ignored irrespective of the configuration and import
table; the analysis path performs no built-in exclusion and counts a
vocabulary tag that is imported from a tracked package. -/
theorem C5_builtin_exclusion :
    (∀ (cfg : AdderConfig) (imports : List ImportInfo) (n : String),
      n ∈ HTML_ELEMENTS → shouldProcessComponent cfg (some n) imports = false) ∧
    ((analyzeJSXUsage kitAnalyzerConfig "A" [⟨"kit", ["button"]⟩]
        initialAnalysis [⟨some "button", []⟩]).1.components.map Prod.fst = ["button"]) := by
  constructor
  · have hAll : ∀ m ∈ HTML_ELEMENTS, HTML_ELEMENTS.contains (jsToLower m) = true := by
      decide
    exact fun cfg imports n hn => htmlGuard cfg imports n (hAll n hn)
  · decide

/-- Witness for C5: the vocabulary name `div` is ignored by the mutation
path even when it is configured as a target and imported from a tracked
package. -/
theorem C5_builtin_exclusion_witness :
    shouldProcessComponent ⟨["div"], ["kit"], [], true⟩ (some "div")
        [⟨"kit", ["div"]⟩] = false :=
  C5_builtin_exclusion.1 ⟨["div"], ["kit"], [], true⟩ [⟨"kit", ["div"]⟩] "div"
    (by decide)

/-- C6 counterexample: the analysis path does not account for an errored
file: running the analyzer over files A, B, C where B fails to parse
yields a report whose file count is 2 and whose file map names only A
and C — file B appears nowhere, and no error record exists in the
analysis model at all. -/
theorem C6_analyzer_error_unaccounted :
    (analyzerMain kitAnalyzerConfig
        [("A", .ok ⟨[], []⟩), ("B", .error "boom"), ("C", .ok ⟨[], []⟩)]).summary.totalFiles
      = 2 ∧
    (analyzerMain kitAnalyzerConfig
        [("A", .ok ⟨[], []⟩), ("B", .error "boom"), ("C", .ok ⟨[], []⟩)]).files.map Prod.fst
      = ["A", "C"] := by
  decide

/-- C6 (amended): in both paths a per-file failure never aborts the run
— each remaining file is still processed.  The mutation path surfaces
every recovered error as the message string `Error processing <path>:
<message>` in its stats and counts exactly the successfully parsed files
as processed; the analysis path records nothing for an errored file, its
report counting only the successfully parsed files. -/
theorem C6_error_surfacing :
    ∀ (mcfg : AdderConfig) (acfg : AnalyzerConfig)
      (files : List (String × Except String ParsedFile)),
    (adderRun mcfg files).errors = files.filterMap adderErrorMsg ∧
    (adderRun mcfg files).filesProcessed = (files.filter (fun f => parseOk f.2)).length ∧
    (analyzerMain acfg files).summary.totalFiles =
      (files.filter (fun f => parseOk f.2)).length := by
  intro mcfg acfg files
  refine ⟨?_, ?_, ?_⟩
  · have h := (adderRunGo mcfg files initialAdderStats).1
    simpa [adderRun, initialAdderStats] using h
  · have h := (adderRunGo mcfg files initialAdderStats).2
    simpa [adderRun, initialAdderStats] using h
  · have h := analyzerRunGo_totalFiles acfg files initialAnalysis
    simpa [analyzerMain, analyzerRun, finalizeSummary, initialAnalysis] using h

/-- C7: two in-scope sightings of `Field` in file A and one in file B
leave its record with `totalUsages = 3` and per-file counters A ↦ 2,
B ↦ 1; in general every in-scope sighting increments the total and the
counter of the sighting file by exactly one. -/
theorem C7_usage_aggregation :
    mapGet (analyzerMain kitAnalyzerConfig
        [("A", .ok ⟨[⟨"kit", [.named "Field"]⟩],
            [⟨some "Field", []⟩, ⟨some "Field", []⟩]⟩),
         ("B", .ok ⟨[⟨"kit", [.named "Field"]⟩], [⟨some "Field", []⟩]⟩)]).components
        "Field"
      = some ⟨"Field", 3, [("A", 2), ("B", 1)], ["kit"], "low"⟩ ∧
    (∀ (cfg : AnalyzerConfig) (fp : String) (fileImports : List ImportInfo)
      (st : AnalysisState) (usage : List (String × Nat)) (el : JSXElement) (n : String),
      el.name = some n →
      inScopeSighting cfg fileImports el.name = true →
      recordedTotal (analyzeOneJSX cfg fp fileImports (st, usage) el).1 n =
        recordedTotal st n + 1 ∧
      recordedFileCount (analyzeOneJSX cfg fp fileImports (st, usage) el).1 n fp =
        recordedFileCount st n fp + 1) :=
  ⟨by decide, inScopeBump⟩

/-- Witness for C7: one concrete in-scope sighting of `Field`. -/
theorem C7_usage_aggregation_witness :
    recordedTotal (analyzeOneJSX kitAnalyzerConfig "A" [⟨"kit", ["Field"]⟩]
        (initialAnalysis, []) ⟨some "Field", []⟩).1 "Field" =
      recordedTotal initialAnalysis "Field" + 1 ∧
    recordedFileCount (analyzeOneJSX kitAnalyzerConfig "A" [⟨"kit", ["Field"]⟩]
        (initialAnalysis, []) ⟨some "Field", []⟩).1 "Field" "A" =
      recordedFileCount initialAnalysis "Field" "A" + 1 :=
  C7_usage_aggregation.2 kitAnalyzerConfig "A" [⟨"kit", ["Field"]⟩]
    initialAnalysis [] ⟨some "Field", []⟩ "Field" rfl (by decide)

/-- C8: for fixed thresholds, a smaller usage count is never assigned a
higher priority than a larger one, priorities being ranked
low < medium < high as computed by `getMigrationPriority`. -/
theorem C8_priority_monotone :
    ∀ (cfg : AnalyzerConfig) (a b : Nat), a < b →
    priorityRank (getMigrationPriority cfg a) ≤ priorityRank (getMigrationPriority cfg b) := by
  intro cfg a b hab
  unfold getMigrationPriority priorityRank
  by_cases h1 : a ≥ cfg.priorityThresholds.high
  · have h2 : b ≥ cfg.priorityThresholds.high := le_trans h1 (le_of_lt hab)
    simp [h1, h2]
  · by_cases h2 : a ≥ cfg.priorityThresholds.medium
    · have h3 : b ≥ cfg.priorityThresholds.medium := le_trans h2 (le_of_lt hab)
      by_cases h4 : b ≥ cfg.priorityThresholds.high
      · simp [h1, h2, h3, h4]
      · simp [h1, h2, h3, h4]
    · simp only [h1, h2, if_false]
      split_ifs <;> simp_all

/-- Witness for C8: counts 3 and 7 against thresholds high 10, medium 5. -/
theorem C8_priority_monotone_witness :
    priorityRank (getMigrationPriority kitAnalyzerConfig 3) ≤
      priorityRank (getMigrationPriority kitAnalyzerConfig 7) :=
  C8_priority_monotone kitAnalyzerConfig 3 7 (by decide)

/-- C9: an element whose tag is not a plain identifier (extracted name
missing) is never mutated by the props adder — the merge returns the
attributes untouched with every outcome field empty and false — and is
never counted by the analyzer — one visit leaves the analysis state and
usage map unchanged. -/
theorem C9_non_identifier_tags_untouched :
    (∀ (cfg : AdderConfig) (imports : List ImportInfo) (attrs : List JSXAttribute),
      addPropsToComponent cfg imports ⟨none, attrs⟩ =
        { attrs := attrs, processed := false, changed := false,
          added := [], updated := [], skipped := [] }) ∧
    (∀ (cfg : AnalyzerConfig) (fp : String) (fileImports : List ImportInfo)
      (st : AnalysisState) (usage : List (String × Nat)) (attrs : List JSXAttribute),
      analyzeOneJSX cfg fp fileImports (st, usage) ⟨none, attrs⟩ = (st, usage)) :=
  ⟨adderSkipsMissingName, analyzerSkipsMissingName⟩

/-- C10: at the end of an analysis run the summary agrees with the
per-component records: `totalComponents` is the number of records and
`totalUsages` is the sum of the totals of the records. -/
theorem C10_summary_consistency :
    ∀ (cfg : AnalyzerConfig) (files : List (String × Except String ParsedFile)),
    (analyzerMain cfg files).summary.totalComponents =
      (analyzerMain cfg files).components.length ∧
    (analyzerMain cfg files).summary.totalUsages =
      ((analyzerMain cfg files).components.map (fun kv => kv.2.totalUsages)).sum := by
  intro cfg files
  constructor
  · rfl
  · show (finalizeSummary (analyzerRun cfg files)).summary.totalUsages = _
    rw [show (analyzerMain cfg files).components = (analyzerRun cfg files).components from rfl]
    simp [finalizeSummary, foldl_add_totalUsages]
